import Mathlib

/-!
Verification development for the `winrm` Go client library.

The Go sources are shallowly embedded: pure string manipulation is
translated to Lean functions on `String`; the HTTP layer and the remote
shell/command collaborators are abstracted as explicit environments
(records of outcomes), and every externally visible side effect (issuing
a POST, reading or closing a response body, opening or closing a shell,
copying a stream) is recorded in an explicit trace list, so that the
"which effects happen on which path" content of the specification becomes
provable about the embedding.

Go's multiple return value `(string, error)` is embedded as
`String × Option String` (`none` = nil error); functions returning only
`error` or a value-or-error are embedded with `Except String`.
-/

set_option autoImplicit false

namespace Winrm

/-- Boolean test that the first list starts with the second list
(character-level prefix test used to build substring containment). -/
def charsStartWith : List Char → List Char → Bool
  | [], _ => true
  | _ :: _, [] => false
  | a :: as, b :: bs => a == b && charsStartWith as bs

/-- Boolean substring containment on character lists: `charsContain pat s`
holds when `pat` occurs contiguously inside `s`. -/
def charsContain (pat : List Char) : List Char → Bool
  | [] => charsStartWith pat []
  | b :: bs => charsStartWith pat (b :: bs) || charsContain pat bs

/-- Embedding of Go `strings.Contains s pat`. -/
def strContains (s pat : String) : Bool :=
  charsContain pat.toList s.toList

/-- Embedding of Go `var soapXML = "application/soap+xml"` (src/unnamed/part_000). -/
def soapXML : String := "application/soap+xml"

/-- The observable effects of the response-parsing functions on the
response body stream: `readAll` is `io.ReadAll(response.Body)` and
`closeBody` is `response.Body.Close()`. -/
inductive BodyEvent where
  | readAll
  | closeBody
deriving DecidableEq

/-- An HTTP response as observed by the response-parsing functions:
the `Content-Type` header, the status code, the outcome of reading the
body stream to the end (`io.ReadAll`: content plus optional error), and
the outcome of closing it. -/
structure HttpResponse where
  contentType : String
  statusCode : Nat
  readResult : String × Option String
  closeErr : Option String
deriving DecidableEq

/-- Embedding of `body` (src/unnamed/part_000): if the `Content-Type`
header contains `application/soap+xml`, the body is read to the end and
then closed (the close is deferred, so it also runs when the read fails);
otherwise the function returns `("", invalid content type)` without
touching the body stream. The deferred close-error assignment in the
source writes to local variables while the function's result parameters
are unnamed, so the returned pair never depends on `closeErr`. -/
def body (response : HttpResponse) : (String × Option String) × List BodyEvent :=
  if strContains response.contentType ("application/soap+xml") then
    match response.readResult with
    | (_, some e) =>
        (("", some ("error while reading request body " ++ e)),
         [BodyEvent.readAll, BodyEvent.closeBody])
    | (bytes, none) =>
        ((bytes, none), [BodyEvent.readAll, BodyEvent.closeBody])
  else
    (("", some ("invalid content type")), [])

/-- Embedding of `parse` (src/auth.go), textually the same function as
`body` in src/unnamed/part_000, duplicated here as it is in the source. -/
def parse (response : HttpResponse) : (String × Option String) × List BodyEvent :=
  if strContains response.contentType ("application/soap+xml") then
    match response.readResult with
    | (_, some e) =>
        (("", some ("error while reading request body " ++ e)),
         [BodyEvent.readAll, BodyEvent.closeBody])
    | (bytes, none) =>
        ((bytes, none), [BodyEvent.readAll, BodyEvent.closeBody])
  else
    (("", some ("invalid content type")), [])

/-- UTF-8 byte sequence of a Unicode code point, as produced by Go's
conversion `[]byte(s)` of a string to bytes. -/
def utf8Bytes (c : Nat) : List Nat :=
  if c < 0x80 then [c]
  else if c < 0x800 then [0xC0 + c / 0x40, 0x80 + c % 0x40]
  else if c < 0x10000 then
    [0xE0 + c / 0x1000, 0x80 + c / 0x40 % 0x40, 0x80 + c % 0x40]
  else
    [0xF0 + c / 0x40000, 0x80 + c / 0x1000 % 0x40, 0x80 + c / 0x40 % 0x40, 0x80 + c % 0x40]

/-- The UTF-8 bytes of a string (Go `[]byte(s)`). -/
def strUTF8 (s : String) : List Nat :=
  (s.toList.map fun c => utf8Bytes c.toNat).flatten

/-- The standard base64 alphabet used by Go `base64.StdEncoding`. -/
def base64Alphabet : List Char :=
  ("ABCDEFGHIJKLMNOPQRSTUVWXYZabcdefghijklmnopqrstuvwxyz0123456789+/").toList

/-- Character at an index of the standard base64 alphabet. -/
def b64Char (n : Nat) : Char := base64Alphabet.getD n '?'

/-- Base64 encoding of a byte list, three input bytes to four output
characters, with `=` padding, as in Go `base64.StdEncoding.EncodeToString`. -/
def base64Chunks : List Nat → List Char
  | [] => []
  | [b1] => [b64Char (b1 / 4), b64Char (b1 % 4 * 16), '=', '=']
  | [b1, b2] => [b64Char (b1 / 4), b64Char (b1 % 4 * 16 + b2 / 16), b64Char (b2 % 16 * 4), '=']
  | b1 :: b2 :: b3 :: rest =>
      b64Char (b1 / 4) :: b64Char (b1 % 4 * 16 + b2 / 16) ::
        b64Char (b2 % 16 * 4 + b3 / 64) :: b64Char (b3 % 64) :: base64Chunks rest

/-- Embedding of Go `base64.StdEncoding.EncodeToString` on the UTF-8
bytes of a string. -/
def base64EncodeUTF8 (s : String) : String := String.mk (base64Chunks (strUTF8 s))

/-- The `Authorization` header value installed by Go
`http.Request.SetBasicAuth(username, password)`:
`"Basic " + base64(username + ":" + password)`. -/
def basicAuthHeader (username password : String) : String :=
  "Basic " ++ base64EncodeUTF8 (username ++ ":" ++ password)

/-- Which dial function a configured `http.Transport` ends up with:
either the default `net.Dialer` (with its timeout and keep-alive
in seconds) or a caller-supplied dial function, identified by a tag. -/
inductive DialUsed where
  | defaultDial (timeoutSec keepAliveSec : Nat)
  | customDial (tag : Nat)
deriving DecidableEq

/-- Which proxy resolver a configured `http.Transport` ends up with:
`http.ProxyFromEnvironment` or a caller-supplied function, identified
by a tag. -/
inductive ProxyUsed where
  | fromEnvironment
  | customProxy (tag : Nat)
deriving DecidableEq

/-- The observable configuration of a Go `http.Transport` value as built
by the two `Transport` methods: proxy choice, the `tls.Config` fields the
source sets (renegotiation policy, insecure-skip-verify, number of client
certificates installed, pinned max TLS version, server name, root CA
pool), the dial function, and the response-header timeout. Fields a
variant leaves unset keep their Go zero values via the defaults below. -/
structure HttpTransport where
  proxy : ProxyUsed
  tlsRenegotiateOnceAsClient : Bool := false
  tlsInsecureSkipVerify : Bool
  tlsClientCertCount : Nat := 0
  tlsMaxVersionTLS12 : Bool := false
  tlsServerName : String := ""
  tlsRootCAs : Option Unit := none
  dial : DialUsed
  responseHeaderTimeout : Nat
deriving DecidableEq

/-- Embedding of the `clientRequest` struct (src/unnamed/part_000):
optional caller-supplied dial function and optional proxy resolver,
each represented by an identifying tag. The configured transport is
returned by `Transport` rather than stored, mirroring the single
assignment `c.transport = transport`. -/
structure clientRequest where
  dial : Option Nat := none
  proxyfunc : Option Nat := none
deriving DecidableEq

/-- Embedding of the `ClientAuthRequest` struct (src/auth.go): optional
caller-supplied dial function, represented by an identifying tag. -/
structure ClientAuthRequest where
  dial : Option Nat := none
deriving DecidableEq

/-- Outcomes of the external cryptographic collaborators:
`x509KeyPair cert key` is the error (if any) of `tls.X509KeyPair`, and
`appendCertsFromPEM bytes` is the boolean success of
`x509.CertPool.AppendCertsFromPEM`. Bytes are lists of naturals. -/
structure CryptoEnv where
  x509KeyPair : List Nat → List Nat → Option String
  appendCertsFromPEM : List Nat → Bool

/-- Embedding of the `Endpoint` data holder. Modelled from the spec:
the `Endpoint` type itself is outside the provided sources; the spec
describes it as host, port, HTTPS flag, insecure-skip-verify flag,
optional client certificate and key, optional CA bundle, optional TLS
server name override, and response-header timeout, immutable once
constructed. `urlStr` stands for the `endpoint.url()` WS-Management URL,
whose format the spec does not give. -/
structure Endpoint where
  Host : String
  Port : Nat
  HTTPS : Bool
  Insecure : Bool
  Cert : List Nat
  Key : List Nat
  CACert : Option (List Nat)
  TLSServerName : String
  Timeout : Nat
  urlStr : String
deriving DecidableEq

/-- Embedding of `readCACerts` (src/unnamed/part_001): builds a fresh
certificate pool and appends the PEM bytes, failing with
"unable to read certificates" when the append reports failure. The pool
itself carries no further observable state and is embedded as `Unit`. -/
def readCACerts (env : CryptoEnv) (certs : List Nat) : Except String Unit :=
  if env.appendCertsFromPEM certs then Except.ok () else Except.error ("unable to read certificates")

/-- Embedding of `(c *clientRequest).Transport` (src/unnamed/part_000):
chooses the default 30s/30s dialer unless a caller-supplied dial is
present, chooses `ProxyFromEnvironment` unless a caller-supplied proxy
resolver is present, builds the transport with the endpoint's
insecure-skip-verify flag and TLS server name, and, when the endpoint
carries a non-empty CA bundle, loads it into the root CA pool (failing
when it cannot be parsed). No client certificate is parsed or installed. -/
def clientRequest.Transport (env : CryptoEnv) (c : clientRequest) (endpoint : Endpoint) :
    Except String HttpTransport :=
  let dial := match c.dial with
    | some d => DialUsed.customDial d
    | none => DialUsed.defaultDial 30 30
  let proxyfunc := match c.proxyfunc with
    | some p => ProxyUsed.customProxy p
    | none => ProxyUsed.fromEnvironment
  let transport : HttpTransport :=
    { proxy := proxyfunc
      tlsInsecureSkipVerify := endpoint.Insecure
      tlsServerName := endpoint.TLSServerName
      dial := dial
      responseHeaderTimeout := endpoint.Timeout }
  match endpoint.CACert with
  | some ca =>
      if ca.length > 0 then
        match readCACerts env ca with
        | Except.error e => Except.error e
        | Except.ok _ => Except.ok { transport with tlsRootCAs := some () }
      else Except.ok transport
  | none => Except.ok transport

/-- Embedding of `(c *ClientAuthRequest).Transport` (src/auth.go): parses
the endpoint's client certificate/key pair (failing on malformed
material), chooses the default 30s/30s dialer unless a caller-supplied
dial is present, builds the transport with `ProxyFromEnvironment`,
once-as-client renegotiation, the endpoint's insecure-skip-verify flag,
the parsed client certificate installed, and TLS 1.2 pinned as maximum
version, and, when the endpoint carries a non-empty CA bundle, loads it
into the root CA pool (failing when it cannot be parsed). -/
def ClientAuthRequest.Transport (env : CryptoEnv) (c : ClientAuthRequest) (endpoint : Endpoint) :
    Except String HttpTransport :=
  match env.x509KeyPair endpoint.Cert endpoint.Key with
  | some e => Except.error e
  | none =>
    let dial := match c.dial with
      | some d => DialUsed.customDial d
      | none => DialUsed.defaultDial 30 30
    let transport : HttpTransport :=
      { proxy := ProxyUsed.fromEnvironment
        tlsRenegotiateOnceAsClient := true
        tlsInsecureSkipVerify := endpoint.Insecure
        tlsClientCertCount := 1
        tlsMaxVersionTLS12 := true
        dial := dial
        responseHeaderTimeout := endpoint.Timeout }
    match endpoint.CACert with
    | some ca =>
        if ca.length > 0 then
          match readCACerts env ca with
          | Except.error e => Except.error e
          | Except.ok _ => Except.ok { transport with tlsRootCAs := some () }
        else Except.ok transport
    | none => Except.ok transport

/-- The two interchangeable transport strategies selectable at Client
construction: the basic-auth `clientRequest` (the default) and the
mutual-TLS `ClientAuthRequest`, each carrying its configuration record. -/
inductive Transporter where
  | basic (c : clientRequest)
  | mutualTLS (c : ClientAuthRequest)
deriving DecidableEq

/-- Dispatch of the `Transport(endpoint)` interface method to the
selected strategy's implementation. -/
def Transporter.Transport (env : CryptoEnv) : Transporter → Endpoint → Except String HttpTransport
  | Transporter.basic c, e => clientRequest.Transport env c e
  | Transporter.mutualTLS c, e => ClientAuthRequest.Transport env c e

/-- Embedding of the `Parameters` data holder. Modelled from the spec:
the `Parameters` type itself is outside the provided sources; the spec
describes it as operation timeout, locale, max envelope size, optional
custom dialer, and optional transport-strategy override factory,
immutable and copied into each Client at construction. The dialer is an
identifying tag as in `clientRequest`; the override factory is embedded
by the `Transporter` value it produces. -/
structure Parameters where
  Timeout : String
  Locale : String
  EnvelopeSize : Nat
  Dial : Option Nat := none
  TransportDecorator : Option Transporter := none
deriving DecidableEq

/-- A store of `Parameters` values addressed by pointer, used to embed
the Go `*Parameters` argument of `NewClientWithParameters`: the caller
passes a pointer and may later mutate the pointed-to value. -/
abbrev ParamStore : Type := Nat → Parameters

/-- Embedding of the `Client` struct (src/unnamed/part_001): embedded
`Parameters` copy, credentials, target URL, HTTPS flag, and the selected
transport strategy. `transport` is the configuration the `Transport`
call stored inside the strategy before the Client was returned. -/
structure Client where
  Parameters : Parameters
  username : String
  password : String
  useHTTPS : Bool
  url : String
  http : Transporter
  transport : HttpTransport
deriving DecidableEq

/-- The transport strategy `NewClientWithParameters` ends up with: the
decorator's product when the parameters carry one, otherwise the default
`&clientRequest{dial: params.Dial}`. -/
def clientTransporter (params : Parameters) : Transporter :=
  match params.TransportDecorator with
  | some t => t
  | none => Transporter.basic { dial := params.Dial, proxyfunc := none }

/-- Embedding of `NewClientWithParameters` (src/unnamed/part_001): the
`Parameters` value is copied out of the caller's pointer (`*params`),
the transport strategy is the default `clientRequest` unless a decorator
is provided, and the strategy's `Transport(endpoint)` is run; on failure
a nil Client and the wrapped error are returned, on success the Client. -/
def NewClientWithParameters (env : CryptoEnv) (store : ParamStore) (endpoint : Endpoint)
    (user password : String) (paramsPtr : Nat) : Except String Client :=
  let params := store paramsPtr
  let httpT := clientTransporter params
  match httpT.Transport env endpoint with
  | Except.error e => Except.error ("can\x27t parse this key and certs: " ++ e)
  | Except.ok cfg =>
      Except.ok
        { Parameters := params
          username := user
          password := password
          useHTTPS := endpoint.HTTPS
          url := endpoint.urlStr
          http := httpT
          transport := cfg }

/-- Modelled from the spec: `DefaultParameters`, the process-wide default
`Parameters` value (spec §9 design notes); its concrete field values are
outside the provided sources, so representative constants are fixed here.
It carries no custom dialer and no transport decorator. -/
def DefaultParameters : Parameters :=
  { Timeout := "PT60S", Locale := "en-US", EnvelopeSize := 153600 }

/-- Embedding of `NewClient` (src/unnamed/part_001): delegates to
`NewClientWithParameters` with `DefaultParameters`. -/
def NewClient (env : CryptoEnv) (endpoint : Endpoint) (user password : String) :
    Except String Client :=
  NewClientWithParameters env (fun _ => DefaultParameters) endpoint user password 0

/-- Embedding of `soap.SoapMessage` at the interface the transport layer
uses: `request.String()`, the serialized envelope. -/
structure SoapMessage where
  str : String
deriving DecidableEq

/-- An outgoing HTTP request as built by the two `Post` methods: method,
target URL, serialized body, and the two headers the source sets. -/
structure HttpRequest where
  method : String
  url : String
  bodyStr : String
  contentType : String
  authorization : String
deriving DecidableEq

/-- Outcomes of the HTTP collaborators inside `Post`:
`newRequestErr` is the error (if any) of `http.NewRequest`, and
`doResult` is the outcome of `httpClient.Do(req)`. -/
structure HttpEnv where
  newRequestErr : Option String
  doResult : Except String HttpResponse

/-- Embedding of `(c clientRequest).Post` (src/unnamed/part_000): builds
the POST with `Content-Type: application/soap+xml;charset=UTF-8` and the
basic-auth `Authorization` header from the Client's credentials, issues
it once (recorded in the returned request list), and validates the
response through `body`. The receiver's stored transport only influences
the abstracted `Do` outcome. The deferred status-code replacement in the
source assigns to local variables while the function's result parameters
are unnamed, so when `body` succeeds the body is returned with a nil
error even on a non-200 status. -/
def clientRequest.Post (env : HttpEnv) (client : Client) (request : SoapMessage) :
    (String × Option String) × List HttpRequest :=
  match env.newRequestErr with
  | some e => (("", some ("impossible to create http request " ++ e)), [])
  | none =>
    let req : HttpRequest :=
      { method := ("POST")
        url := client.url
        bodyStr := request.str
        contentType := soapXML ++ ";charset=UTF-8"
        authorization := basicAuthHeader client.username client.password }
    match env.doResult with
    | Except.error e => (("", some ("unknown error " ++ e)), [req])
    | Except.ok resp =>
        match body resp with
        | ((_, some e), _) =>
            (("", some ("http response error: " ++ toString resp.statusCode ++ " - " ++ e)), [req])
        | ((b, none), _) => ((b, none), [req])

/-- Embedding of `(c ClientAuthRequest).Post` (src/auth.go): like the
basic-auth variant but the `Authorization` header is the constant
mutual-auth security-profile URL (no credential bytes), and the response
is validated through `parse`. The same ineffective deferred status-code
replacement applies. -/
def ClientAuthRequest.Post (env : HttpEnv) (client : Client) (request : SoapMessage) :
    (String × Option String) × List HttpRequest :=
  match env.newRequestErr with
  | some e => (("", some ("impossible to create http request " ++ e)), [])
  | none =>
    let req : HttpRequest :=
      { method := ("POST")
        url := client.url
        bodyStr := request.str
        contentType := soapXML ++ ";charset=UTF-8"
        authorization := "http://schemas.dmtf.org/wbem/wsman/1/wsman/secprofile/https/mutual" }
    match env.doResult with
    | Except.error e => (("", some ("unknown error " ++ e)), [req])
    | Except.ok resp =>
        match parse resp with
        | ((_, some e), _) =>
            (("", some ("http response error: " ++ toString resp.statusCode ++ " - " ++ e)), [req])
        | ((b, none), _) => ((b, none), [req])

/-- Outcome of one executed remote command as observed by the run
orchestration: the command's exit code (`cmd.ExitCode()`), its latched
error slot (`cmd.err`), and the data its stdout and stderr streams
deliver to the `io.Copy` pumps. -/
structure CommandResult where
  exitCode : Int
  err : Option String
  stdoutData : String
  stderrData : String
deriving DecidableEq

/-- Outcomes of the shell/command collaborators used by
`RunWithContextWithInput` (their implementations live outside the
transport sources in scope): the result of `c.CreateShell()`, the result
of `shell.ExecuteWithContext(ctx, command)` as a function of the command
string, and the error (if any) of `shell.Close()`, which the source
discards via `defer shell.Close()`. -/
structure RunEnv where
  createShell : Except String Unit
  execute : String → Except String CommandResult
  closeErr : Option String

/-- The externally visible steps of the run orchestration, recorded in
order: shell creation, command execution, the stdin pump's copy into and
close of `cmd.Stdin`, the stdout/stderr pumps, `cmd.Wait()`,
`cmd.Close()`, and `shell.Close()`. -/
inductive RunAction where
  | createShell
  | execute (command : String)
  | stdinCopy
  | stdinClose
  | stdoutCopy
  | stderrCopy
  | cmdWait
  | cmdClose
  | closeShell
deriving DecidableEq

/-- Result of a run: exit code, returned error, the strings written to
the caller's stdout/stderr sinks, and the trace of steps performed. -/
structure RunOutcome where
  exitCode : Int
  err : Option String
  stdoutWritten : String
  stderrWritten : String
  trace : List RunAction
deriving DecidableEq

/-- Embedding of `Client.RunWithContextWithInput` (src/unnamed/part_001):
creates a shell (returning `(1, err)` at once on failure, before the
close is deferred), defers `shell.Close()` (whose error is discarded and
which runs last on every later path), executes the command (returning
`(1, err)` on failure), then runs the three pumps — the stdin pump does
nothing when `stdin` is nil, otherwise copies the input and closes
`cmd.Stdin` — waits, closes the command, and returns
`(cmd.ExitCode(), cmd.err)`. The concurrent pumps are recorded
sequentially in the trace; the claims proved below depend only on which
steps occur, not on their interleaving. -/
def Client.RunWithContextWithInput (env : RunEnv) (command : String) (stdin : Option String) :
    RunOutcome :=
  match env.createShell with
  | Except.error e =>
      { exitCode := 1, err := some e, stdoutWritten := "", stderrWritten := ""
        trace := [RunAction.createShell] }
  | Except.ok _ =>
      match env.execute command with
      | Except.error e =>
          { exitCode := 1, err := some e, stdoutWritten := "", stderrWritten := ""
            trace := [RunAction.createShell, RunAction.execute command, RunAction.closeShell] }
      | Except.ok cmd =>
          let stdinTrace := match stdin with
            | none => []
            | some _ => [RunAction.stdinCopy, RunAction.stdinClose]
          { exitCode := cmd.exitCode
            err := cmd.err
            stdoutWritten := cmd.stdoutData
            stderrWritten := cmd.stderrData
            trace := [RunAction.createShell, RunAction.execute command] ++ stdinTrace ++
              [RunAction.stdoutCopy, RunAction.stderrCopy, RunAction.cmdWait,
               RunAction.cmdClose, RunAction.closeShell] }

/-- Embedding of `Client.RunWithContext` (src/unnamed/part_001):
delegates to `RunWithContextWithInput` with a nil stdin. -/
def Client.RunWithContext (env : RunEnv) (command : String) : RunOutcome :=
  Client.RunWithContextWithInput env command none

/-- Embedding of `Client.RunWithContextWithString` (src/unnamed/part_001):
delegates to `RunWithContextWithInput` with in-memory stdout/stderr
buffers and a string reader for stdin, returning
`(stdout, stderr, exitCode, err)` together with the trace. -/
def Client.RunWithContextWithString (env : RunEnv) (command stdin : String) :
    (String × String × Int × Option String) × List RunAction :=
  let r := Client.RunWithContextWithInput env command (some stdin)
  ((r.stdoutWritten, r.stderrWritten, r.exitCode, r.err), r.trace)

/-- Embedding of `Client.RunPSWithContextWithString`
(src/unnamed/part_001): encodes the command through the external
PowerShell script encoder (passed as the function `Powershell`, its
implementation being the collaborator outside the sources in scope); an
empty encoding is rejected at once with exit code 1 and the error
"cannot encode the given command", with no further step performed;
otherwise the encoded command is delegated to
`RunWithContextWithString`. -/
def Client.RunPSWithContextWithString (Powershell : String → String) (env : RunEnv)
    (command stdin : String) : (String × String × Int × Option String) × List RunAction :=
  let command := Powershell command
  if command = "" then
    (("", "", 1, some ("cannot encode the given command")), [])
  else
    Client.RunWithContextWithString env command stdin

/-- Embedding of `Client.RunPSWithContext` (src/unnamed/part_001): like
`RunPSWithContextWithString` but with in-memory buffers and a nil stdin
passed to `RunWithContextWithInput`. -/
def Client.RunPSWithContext (Powershell : String → String) (env : RunEnv) (command : String) :
    (String × String × Int × Option String) × List RunAction :=
  let command := Powershell command
  if command = "" then
    (("", "", 1, some ("cannot encode the given command")), [])
  else
    let r := Client.RunWithContextWithInput env command none
    ((r.stdoutWritten, r.stderrWritten, r.exitCode, r.err), r.trace)

/-- A sample `Parameters` value for concrete instantiations. -/
def sampleParams : Parameters :=
  { Timeout := "PT60S", Locale := "en-US", EnvelopeSize := 153600 }

/-- A second `Parameters` value, distinct from `sampleParams`. -/
def otherParams : Parameters :=
  { Timeout := "PT60S", Locale := "fr-FR", EnvelopeSize := 153600 }

/-- A sample configured transport for concrete instantiations; it is the
configuration the default basic-auth strategy produces on
`sampleEndpoint`. -/
def sampleTransport : HttpTransport :=
  { proxy := ProxyUsed.fromEnvironment
    tlsInsecureSkipVerify := false
    dial := DialUsed.defaultDial 30 30
    responseHeaderTimeout := 0 }

/-- A sample endpoint (no CA bundle) for concrete instantiations. -/
def sampleEndpoint : Endpoint :=
  { Host := "host"
    Port := 5986
    HTTPS := true
    Insecure := false
    Cert := [1]
    Key := [2]
    CACert := none
    TLSServerName := ""
    Timeout := 0
    urlStr := "https://host:5986/wsman" }

/-- A sample client for concrete instantiations; it is the client
`NewClientWithParameters` constructs from `sampleParams` and
`sampleEndpoint` with credentials `user`/`pass`. -/
def sampleClient : Client :=
  { Parameters := sampleParams
    username := "user"
    password := "pass"
    useHTTPS := true
    url := "https://host:5986/wsman"
    http := Transporter.basic {}
    transport := sampleTransport }

/-- A sample serialized envelope for concrete instantiations. -/
def sampleMsg : SoapMessage := { str := "<env/>" }

end Winrm

namespace Winrm

/-- C1 counterexample: at a 200-status response with content type
`text/html`, both parsing functions do return an empty body and an
error, but the error is "invalid content type", not the
"unexpected content type" the claim states. -/
theorem body_unexpected_content_type_message_cex :
    (body { contentType := "text/html", statusCode := 200,
            readResult := ("<html>", none), closeErr := none }).1 =
      ("", some ("invalid content type")) ∧
    (parse { contentType := "text/html", statusCode := 200,
             readResult := ("<html>", none), closeErr := none }).1 =
      ("", some ("invalid content type")) ∧
    (body { contentType := "text/html", statusCode := 200,
            readResult := ("<html>", none), closeErr := none }).1.2 ≠
      some ("unexpected content type") ∧
    strContains ("invalid content type") ("unexpected content type") = false := by
  refine ⟨by decide, by decide, by decide, by decide⟩

/-- C1 (amended): for every response whose content type does not contain
`application/soap+xml`, both `body` and `parse` return an empty body and
the error "invalid content type", regardless of status code, and both
`Post` variants therefore return an empty body and that error wrapped
with the status code — in particular a 200-status response with a wrong
content type is not treated as success. -/
theorem wrong_content_type_always_rejected (resp : HttpResponse)
    (h : strContains resp.contentType ("application/soap+xml") = false) :
    body resp = (("", some ("invalid content type")), []) ∧
    parse resp = (("", some ("invalid content type")), []) ∧
    (∀ (env : HttpEnv) (client : Client) (msg : SoapMessage),
      env.newRequestErr = none → env.doResult = Except.ok resp →
      (clientRequest.Post env client msg).1 =
        ("", some ("http response error: " ++ toString resp.statusCode ++ " - " ++
          "invalid content type")) ∧
      (ClientAuthRequest.Post env client msg).1 =
        ("", some ("http response error: " ++ toString resp.statusCode ++ " - " ++
          "invalid content type"))) := by
  have hb : body resp = (("", some ("invalid content type")), []) := by
    unfold body
    simp [h]
  have hp : parse resp = (("", some ("invalid content type")), []) := by
    unfold parse
    simp [h]
  refine ⟨hb, hp, ?_⟩
  intro env client msg hne hdo
  obtain ⟨ne, dr⟩ := env
  simp only at hne hdo
  subst hne
  subst hdo
  constructor
  · simp [clientRequest.Post, hb]
  · simp [ClientAuthRequest.Post, hp]

/-- C1 witness: the amended theorem applied at a concrete 200-status
response with content type `text/html`. -/
theorem wrong_content_type_always_rejected_witness :
    body { contentType := "text/html", statusCode := 200,
           readResult := ("<html>", none), closeErr := none } =
      (("", some ("invalid content type")), []) ∧
    (clientRequest.Post
        { newRequestErr := none,
          doResult := Except.ok { contentType := "text/html", statusCode := 200,
                                  readResult := ("<html>", none), closeErr := none } }
        sampleClient sampleMsg).1 =
      ("", some ("http response error: " ++ toString (200 : Nat) ++ " - " ++
        "invalid content type")) := by
  refine ⟨(wrong_content_type_always_rejected
    { contentType := "text/html", statusCode := 200,
      readResult := ("<html>", none), closeErr := none } (by decide)).1, ?_⟩
  exact ((wrong_content_type_always_rejected
    { contentType := "text/html", statusCode := 200,
      readResult := ("<html>", none), closeErr := none } (by decide)).2.2
    { newRequestErr := none,
      doResult := Except.ok { contentType := "text/html", statusCode := 200,
                              readResult := ("<html>", none), closeErr := none } }
    sampleClient sampleMsg rfl rfl).1

/-- C2: evaluation of both `Post` variants at the failing input — a
response with correct content type `application/soap+xml`, status 500
and body "fault" — showing the code returns the body with a nil error:
the deferred status-code replacement assigns to local variables while
the result parameters are unnamed, so the error the source's comment
says "we must replace" never reaches the caller. -/
theorem post_non200_returns_success_bug :
    (clientRequest.Post
        { newRequestErr := none,
          doResult := Except.ok { contentType := "application/soap+xml", statusCode := 500,
                                  readResult := ("fault", none), closeErr := none } }
        sampleClient sampleMsg).1 = ("fault", none) ∧
    (ClientAuthRequest.Post
        { newRequestErr := none,
          doResult := Except.ok { contentType := "application/soap+xml", statusCode := 500,
                                  readResult := ("fault", none), closeErr := none } }
        sampleClient sampleMsg).1 = ("fault", none) := by
  refine ⟨by decide, by decide⟩

/-- C10: for every response, if the content type does not contain
`application/soap+xml` both parsing functions touch the body stream not
at all (no read, no close), and if it does contain it the body stream is
always read to the end and then closed — also when the read itself
fails. -/
theorem body_stream_touched_only_on_soap (resp : HttpResponse) :
    (strContains resp.contentType ("application/soap+xml") = false →
      (body resp).2 = [] ∧ (parse resp).2 = []) ∧
    (strContains resp.contentType ("application/soap+xml") = true →
      (body resp).2 = [BodyEvent.readAll, BodyEvent.closeBody] ∧
      (parse resp).2 = [BodyEvent.readAll, BodyEvent.closeBody]) := by
  constructor
  · intro h
    constructor
    · unfold body; simp [h]
    · unfold parse; simp [h]
  · intro h
    constructor
    · unfold body
      rcases hr : resp.readResult with ⟨b, o⟩
      cases o <;> simp [h, hr]
    · unfold parse
      rcases hr : resp.readResult with ⟨b, o⟩
      cases o <;> simp [h, hr]

/-- C10 witness: the theorem applied at a concrete wrong-content-type
response and at a concrete soap response whose body read fails. -/
theorem body_stream_touched_only_on_soap_witness :
    (body { contentType := "text/plain", statusCode := 401,
            readResult := ("denied", none), closeErr := none }).2 = [] ∧
    (body { contentType := "application/soap+xml", statusCode := 200,
            readResult := ("", some ("read failed")), closeErr := none }).2 =
      [BodyEvent.readAll, BodyEvent.closeBody] := by
  refine ⟨((body_stream_touched_only_on_soap _).1 (by decide)).1,
    ((body_stream_touched_only_on_soap _).2 (by decide)).1⟩

/-- C3: whenever `CreateShell` succeeds, `RunWithContextWithInput`
performs `shell.Close()` on every exit path (including the path where
`ExecuteWithContext` fails); the whole outcome is independent of the
close call's own error (which the `defer` discards), and the returned
error is exactly the one raised by the failing step — `CreateShell`'s
error with exit code 1, `ExecuteWithContext`'s error with exit code 1,
or the command's latched error with its exit code. -/
theorem run_closes_shell_and_keeps_error (env : RunEnv) (command : String)
    (stdin : Option String) :
    (env.createShell = Except.ok () →
      RunAction.closeShell ∈ (Client.RunWithContextWithInput env command stdin).trace) ∧
    (∀ ce, Client.RunWithContextWithInput { env with closeErr := ce } command stdin =
      Client.RunWithContextWithInput env command stdin) ∧
    (∀ e, env.createShell = Except.error e →
      (Client.RunWithContextWithInput env command stdin).exitCode = 1 ∧
      (Client.RunWithContextWithInput env command stdin).err = some e) ∧
    (∀ e, env.createShell = Except.ok () → env.execute command = Except.error e →
      (Client.RunWithContextWithInput env command stdin).exitCode = 1 ∧
      (Client.RunWithContextWithInput env command stdin).err = some e) ∧
    (∀ cmd, env.createShell = Except.ok () → env.execute command = Except.ok cmd →
      (Client.RunWithContextWithInput env command stdin).exitCode = cmd.exitCode ∧
      (Client.RunWithContextWithInput env command stdin).err = cmd.err) := by
  refine ⟨?_, ?_, ?_, ?_, ?_⟩
  · intro h
    cases hex : env.execute command with
    | error e => simp [Client.RunWithContextWithInput, h, hex]
    | ok cmd => cases stdin <;> simp [Client.RunWithContextWithInput, h, hex]
  · intro ce
    cases env
    rfl
  · intro e h
    simp [Client.RunWithContextWithInput, h]
  · intro e h hex
    simp [Client.RunWithContextWithInput, h, hex]
  · intro cmd h hex
    cases stdin <;> simp [Client.RunWithContextWithInput, h, hex]

/-- C3 witness: the theorem applied at a concrete environment where the
shell opens, execution fails with "boom", and the discarded close error
is "close failed": the shell is still closed and "boom" is returned. -/
theorem run_closes_shell_and_keeps_error_witness :
    RunAction.closeShell ∈
      (Client.RunWithContextWithInput
        { createShell := Except.ok (), execute := fun _ => Except.error ("boom"),
          closeErr := some ("close failed") } "dir" none).trace ∧
    (Client.RunWithContextWithInput
        { createShell := Except.ok (), execute := fun _ => Except.error ("boom"),
          closeErr := some ("close failed") } "dir" none).exitCode = 1 ∧
    (Client.RunWithContextWithInput
        { createShell := Except.ok (), execute := fun _ => Except.error ("boom"),
          closeErr := some ("close failed") } "dir" none).err = some ("boom") := by
  refine ⟨(run_closes_shell_and_keeps_error
      { createShell := Except.ok (), execute := fun _ => Except.error ("boom"),
        closeErr := some ("close failed") } "dir" none).1 rfl, ?_, ?_⟩
  · exact ((run_closes_shell_and_keeps_error
      { createShell := Except.ok (), execute := fun _ => Except.error ("boom"),
        closeErr := some ("close failed") } "dir" none).2.2.2.1 "boom" rfl rfl).1
  · exact ((run_closes_shell_and_keeps_error
      { createShell := Except.ok (), execute := fun _ => Except.error ("boom"),
        closeErr := some ("close failed") } "dir" none).2.2.2.1 "boom" rfl rfl).2

/-- C6: for every command whose PowerShell encoding is the empty string,
both `RunPSWithContextWithString` and `RunPSWithContext` return empty
output, exit code 1 and the error "cannot encode the given command"
with an empty trace — no shell is created and no remote step happens. -/
theorem ps_empty_encoding_is_local_error (Powershell : String → String) (env : RunEnv)
    (command stdin : String) (h : Powershell command = "") :
    Client.RunPSWithContextWithString Powershell env command stdin =
      (("", "", 1, some ("cannot encode the given command")), []) ∧
    Client.RunPSWithContext Powershell env command =
      (("", "", 1, some ("cannot encode the given command")), []) ∧
    RunAction.createShell ∉
      (Client.RunPSWithContextWithString Powershell env command stdin).2 := by
  refine ⟨?_, ?_, ?_⟩
  · simp [Client.RunPSWithContextWithString, h]
  · simp [Client.RunPSWithContext, h]
  · simp [Client.RunPSWithContextWithString, h]

/-- C6 witness: the theorem applied at an encoder that yields the empty
string; the environment's shell creation would succeed, yet no step is
performed. -/
theorem ps_empty_encoding_is_local_error_witness :
    Client.RunPSWithContextWithString (fun _ => "")
        { createShell := Except.ok (),
          execute := fun _ => Except.ok { exitCode := 0, err := none,
                                          stdoutData := "", stderrData := "" },
          closeErr := none } "Get-Item" "" =
      (("", "", 1, some ("cannot encode the given command")), []) ∧
    Client.RunPSWithContext (fun _ => "")
        { createShell := Except.ok (),
          execute := fun _ => Except.ok { exitCode := 0, err := none,
                                          stdoutData := "", stderrData := "" },
          closeErr := none } "Get-Item" =
      (("", "", 1, some ("cannot encode the given command")), []) := by
  refine ⟨(ps_empty_encoding_is_local_error (fun _ => "")
      { createShell := Except.ok (),
        execute := fun _ => Except.ok { exitCode := 0, err := none,
                                        stdoutData := "", stderrData := "" },
        closeErr := none } "Get-Item" "" rfl).1,
    (ps_empty_encoding_is_local_error (fun _ => "")
      { createShell := Except.ok (),
        execute := fun _ => Except.ok { exitCode := 0, err := none,
                                        stdoutData := "", stderrData := "" },
        closeErr := none } "Get-Item" "" rfl).2.1⟩

/-- C8: a nil stdin reader makes `RunWithContextWithInput` literally the
same computation as `RunWithContext` (which passes nil), and on that
call the stdin duty performs no step at all: the trace contains neither
a copy into nor a close of the command's stdin sink, on any path. -/
theorem nil_stdin_no_stdin_steps (env : RunEnv) (command : String) :
    Client.RunWithContextWithInput env command none = Client.RunWithContext env command ∧
    RunAction.stdinCopy ∉ (Client.RunWithContextWithInput env command none).trace ∧
    RunAction.stdinClose ∉ (Client.RunWithContextWithInput env command none).trace := by
  refine ⟨rfl, ?_, ?_⟩
  · cases h : env.createShell with
    | error e => simp [Client.RunWithContextWithInput, h]
    | ok u =>
      cases hex : env.execute command with
      | error e => simp [Client.RunWithContextWithInput, h, hex]
      | ok cmd => simp [Client.RunWithContextWithInput, h, hex]
  · cases h : env.createShell with
    | error e => simp [Client.RunWithContextWithInput, h]
    | ok u =>
      cases hex : env.execute command with
      | error e => simp [Client.RunWithContextWithInput, h, hex]
      | ok cmd => simp [Client.RunWithContextWithInput, h, hex]


/-- C4: malformed certificate material makes transport configuration
fail, and a failed configuration makes client construction return no
Client and the wrapped error: (1) an `X509KeyPair` failure fails the
mutual-TLS `Transport` with that error; (2) a CA bundle that cannot be
appended to the pool prevents the mutual-TLS `Transport` from succeeding
and fails the basic-auth `Transport` with "unable to read certificates";
(3) when the selected strategy's `Transport` fails,
`NewClientWithParameters` returns the wrapped configuration error (and
no Client); (4) and (5) a Client is returned by `NewClientWithParameters`
or `NewClient` only when `Transport` succeeded, with the produced
configuration stored. -/
theorem new_client_nil_iff_transport_fails (env : CryptoEnv) (store : ParamStore) (ptr : Nat)
    (e : Endpoint) (u p : String) :
    (∀ ke (car : ClientAuthRequest), env.x509KeyPair e.Cert e.Key = some ke →
      ClientAuthRequest.Transport env car e = Except.error ke) ∧
    (∀ ca (car : ClientAuthRequest) (cr : clientRequest),
      e.CACert = some ca → 0 < ca.length → env.appendCertsFromPEM ca = false →
      (∀ t, ClientAuthRequest.Transport env car e ≠ Except.ok t) ∧
      clientRequest.Transport env cr e = Except.error ("unable to read certificates")) ∧
    (∀ err, (clientTransporter (store ptr)).Transport env e = Except.error err →
      NewClientWithParameters env store e u p ptr =
        Except.error ("can\x27t parse this key and certs: " ++ err)) ∧
    (∀ c, NewClientWithParameters env store e u p ptr = Except.ok c →
      (clientTransporter (store ptr)).Transport env e = Except.ok c.transport) ∧
    (∀ c, NewClient env e u p = Except.ok c →
      (clientTransporter DefaultParameters).Transport env e = Except.ok c.transport) := by
  have key : ∀ (store2 : ParamStore) (ptr2 : Nat) (c : Client),
      NewClientWithParameters env store2 e u p ptr2 = Except.ok c →
      (clientTransporter (store2 ptr2)).Transport env e = Except.ok c.transport := by
    intro store2 ptr2 c h
    simp only [NewClientWithParameters] at h
    cases hT : (clientTransporter (store2 ptr2)).Transport env e with
    | error e2 =>
      rw [hT] at h
      exact absurd h (by simp)
    | ok cfg =>
      rw [hT] at h
      simp only [Except.ok.injEq] at h
      subst h
      rfl
  refine ⟨?_, ?_, ?_, key store ptr, fun c h => key (fun _ => DefaultParameters) 0 c h⟩
  · intro ke car h
    simp [ClientAuthRequest.Transport, h]
  · intro ca car cr hca hlen happ
    constructor
    · intro t
      cases hk : env.x509KeyPair e.Cert e.Key with
      | some ke => simp [ClientAuthRequest.Transport, hk]
      | none => simp [ClientAuthRequest.Transport, hk, hca, hlen, readCACerts, happ]
    · simp [clientRequest.Transport, hca, hlen, readCACerts, happ]
  · intro err h
    simp only [NewClientWithParameters]
    rw [h]

/-- C4 witness: the theorem applied at an environment whose key-pair
parser and CA-pool append both fail, on an endpoint carrying a CA
bundle: the mutual-TLS `Transport` fails with the key-pair error, and
client construction over the default basic-auth strategy returns the
wrapped CA error and no Client. -/
theorem new_client_nil_iff_transport_fails_witness :
    NewClientWithParameters
      { x509KeyPair := fun _ _ => some ("bad pair")
        appendCertsFromPEM := fun _ => false }
      (fun _ => sampleParams) { sampleEndpoint with CACert := some [7] } "u" "p" 0 =
      Except.error ("can\x27t parse this key and certs: " ++ "unable to read certificates") ∧
    ClientAuthRequest.Transport
      { x509KeyPair := fun _ _ => some ("bad pair")
        appendCertsFromPEM := fun _ => false }
      {} { sampleEndpoint with CACert := some [7] } = Except.error ("bad pair") := by
  refine ⟨(new_client_nil_iff_transport_fails
      { x509KeyPair := fun _ _ => some ("bad pair")
        appendCertsFromPEM := fun _ => false }
      (fun _ => sampleParams) 0 { sampleEndpoint with CACert := some [7] } "u"
      "p").2.2.1 "unable to read certificates" rfl, ?_⟩
  exact (new_client_nil_iff_transport_fails
      { x509KeyPair := fun _ _ => some ("bad pair")
        appendCertsFromPEM := fun _ => false }
      (fun _ => sampleParams) 0 { sampleEndpoint with CACert := some [7] } "u" "p").1
    "bad pair" {} rfl

/-- C5 counterexample: the basic-auth `Transport` does handle endpoint
certificate material: on an endpoint carrying a CA bundle it fails with
"unable to read certificates" when the bundle cannot be parsed, and it
installs the bundle into the root CA pool when it can — contradicting
"skips certificate handling entirely" and "does not parse or install
any certificate material from the endpoint". -/
theorem basic_transport_touches_ca_cex :
    clientRequest.Transport
      { x509KeyPair := fun _ _ => none
        appendCertsFromPEM := fun _ => false }
      {} { sampleEndpoint with CACert := some [7] } =
      Except.error ("unable to read certificates") ∧
    clientRequest.Transport
      { x509KeyPair := fun _ _ => none
        appendCertsFromPEM := fun _ => true }
      {} { sampleEndpoint with CACert := some [7] } =
      Except.ok
        { proxy := ProxyUsed.fromEnvironment
          tlsInsecureSkipVerify := false
          tlsServerName := ""
          tlsRootCAs := some ()
          dial := DialUsed.defaultDial 30 30
          responseHeaderTimeout := 0 } := by
  refine ⟨rfl, rfl⟩

/-- C5 (amended): the basic-auth `Transport` skips client
certificate/key handling — its result never consults the key-pair
parser and installs no client certificate, no pinned max TLS version and
no renegotiation policy — and installs the caller-supplied dialer or the
default one and the caller-supplied proxy resolver or the environment
one; however, it does load the endpoint's CA bundle: with a non-empty
bundle it fails when the bundle cannot be appended to the pool and
installs the pool as root CAs when it can, and only without a bundle
is no certificate material touched. -/
theorem basic_transport_skips_client_certs (kp₁ kp₂ : List Nat → List Nat → Option String)
    (app : List Nat → Bool) (c : clientRequest) (e : Endpoint) :
    clientRequest.Transport { x509KeyPair := kp₁, appendCertsFromPEM := app } c e =
      clientRequest.Transport { x509KeyPair := kp₂, appendCertsFromPEM := app } c e ∧
    (∀ t, clientRequest.Transport { x509KeyPair := kp₁, appendCertsFromPEM := app } c e =
        Except.ok t →
      t.tlsClientCertCount = 0 ∧ t.tlsMaxVersionTLS12 = false ∧
      t.tlsRenegotiateOnceAsClient = false ∧
      t.dial = (match c.dial with
        | some d => DialUsed.customDial d
        | none => DialUsed.defaultDial 30 30) ∧
      t.proxy = (match c.proxyfunc with
        | some pf => ProxyUsed.customProxy pf
        | none => ProxyUsed.fromEnvironment)) ∧
    (∀ ca, e.CACert = some ca → 0 < ca.length → app ca = false →
      clientRequest.Transport { x509KeyPair := kp₁, appendCertsFromPEM := app } c e =
        Except.error ("unable to read certificates")) ∧
    (∀ ca, e.CACert = some ca → 0 < ca.length → app ca = true →
      (clientRequest.Transport { x509KeyPair := kp₁, appendCertsFromPEM := app } c e).map
        HttpTransport.tlsRootCAs = Except.ok (some ())) ∧
    (e.CACert = none →
      (clientRequest.Transport { x509KeyPair := kp₁, appendCertsFromPEM := app } c e).map
        HttpTransport.tlsRootCAs = Except.ok none) := by
  refine ⟨rfl, ?_, ?_, ?_, ?_⟩
  · intro t h
    cases hca : e.CACert with
    | none =>
      simp only [clientRequest.Transport, hca, Except.ok.injEq] at h
      subst h
      exact ⟨rfl, rfl, rfl, rfl, rfl⟩
    | some ca =>
      by_cases hl : 0 < ca.length
      · by_cases ha : app ca = true
        · simp [clientRequest.Transport, readCACerts, hca, hl, ha] at h
          subst h
          exact ⟨rfl, rfl, rfl, rfl, rfl⟩
        · rw [Bool.not_eq_true] at ha
          simp [clientRequest.Transport, readCACerts, hca, hl, ha] at h
      · simp only [clientRequest.Transport, hca, if_neg hl, Except.ok.injEq] at h
        subst h
        exact ⟨rfl, rfl, rfl, rfl, rfl⟩
  · intro ca hca hl ha
    simp [clientRequest.Transport, hca, hl, readCACerts, ha]
  · intro ca hca hl ha
    simp [clientRequest.Transport, hca, hl, readCACerts, ha, Except.map]
  · intro hca
    simp [clientRequest.Transport, hca, Except.map]

/-- C5 amended-claim witness: the theorem applied at concrete inputs —
a failing CA append on a bundle-carrying endpoint yields the CA parse
error, and the result never depends on the key-pair parser. -/
theorem basic_transport_skips_client_certs_witness :
    clientRequest.Transport
      { x509KeyPair := fun _ _ => some ("unused")
        appendCertsFromPEM := fun _ => false }
      {} { sampleEndpoint with CACert := some [7] } =
      Except.error ("unable to read certificates") ∧
    clientRequest.Transport
      { x509KeyPair := fun _ _ => some ("unused")
        appendCertsFromPEM := fun _ => false }
      {} sampleEndpoint =
      clientRequest.Transport
        { x509KeyPair := fun _ _ => none
          appendCertsFromPEM := fun _ => false }
        {} sampleEndpoint := by
  refine ⟨(basic_transport_skips_client_certs (fun _ _ => some ("unused")) (fun _ _ => none)
      (fun _ => false) {} { sampleEndpoint with CACert := some [7] }).2.2.1 [7] rfl
      (by decide) rfl, ?_⟩
  exact (basic_transport_skips_client_certs (fun _ _ => some ("unused")) (fun _ _ => none)
      (fun _ => false) {} sampleEndpoint).1

/-- C7: with a well-formed request, each `Post` variant issues exactly
one POST, whose `Content-Type` header is
`application/soap+xml;charset=UTF-8` and whose body is the serialized
envelope; the basic-auth variant's `Authorization` header is the
standard basic-auth header derived from the Client's username and
password, while the mutual-TLS variant's is the constant mutual-auth
security-profile URL, identical for every client and hence carrying no
credential bytes. -/
theorem post_sends_one_soap_request (env : HttpEnv) (client : Client) (msg : SoapMessage)
    (h : env.newRequestErr = none) :
    (clientRequest.Post env client msg).2 =
      [{ method := ("POST"), url := client.url, bodyStr := msg.str,
         contentType := soapXML ++ ";charset=UTF-8",
         authorization := basicAuthHeader client.username client.password }] ∧
    (ClientAuthRequest.Post env client msg).2 =
      [{ method := ("POST"), url := client.url, bodyStr := msg.str,
         contentType := soapXML ++ ";charset=UTF-8",
         authorization := "http://schemas.dmtf.org/wbem/wsman/1/wsman/secprofile/https/mutual" }] ∧
    soapXML ++ ";charset=UTF-8" = "application/soap+xml;charset=UTF-8" ∧
    (ClientAuthRequest.Post env client msg).2 =
      (ClientAuthRequest.Post env { client with username := "", password := "" } msg).2 := by
  obtain ⟨ne, dr⟩ := env
  simp only at h
  subst h
  refine ⟨?_, ?_, by decide, ?_⟩
  · cases dr with
    | error e => rfl
    | ok resp =>
      rcases hb : body resp with ⟨⟨b, o⟩, evs⟩
      cases o <;> simp [clientRequest.Post, hb]
  · cases dr with
    | error e => rfl
    | ok resp =>
      rcases hp : parse resp with ⟨⟨b, o⟩, evs⟩
      cases o <;> simp [ClientAuthRequest.Post, hp]
  · cases dr with
    | error e => rfl
    | ok resp =>
      rcases hp : parse resp with ⟨⟨b, o⟩, evs⟩
      cases o <;> simp [ClientAuthRequest.Post, hp]

/-- C7 witness: the theorem applied at a concrete client and envelope
(the network exchange itself failing does not matter: the single POST
was already issued with both headers set). -/
theorem post_sends_one_soap_request_witness :
    (clientRequest.Post { newRequestErr := none, doResult := Except.error ("net down") }
        sampleClient sampleMsg).2 =
      [{ method := ("POST"), url := sampleClient.url, bodyStr := sampleMsg.str,
         contentType := soapXML ++ ";charset=UTF-8",
         authorization := basicAuthHeader sampleClient.username sampleClient.password }] ∧
    soapXML ++ ";charset=UTF-8" = "application/soap+xml;charset=UTF-8" := by
  refine ⟨(post_sends_one_soap_request
      { newRequestErr := none, doResult := Except.error ("net down") }
      sampleClient sampleMsg rfl).1, ?_⟩
  exact (post_sends_one_soap_request
      { newRequestErr := none, doResult := Except.error ("net down") }
      sampleClient sampleMsg rfl).2.2.1

/-- C9: `NewClientWithParameters` copies the `Parameters` value out of
the caller's pointer at construction: a constructed Client's embedded
`Parameters` equals the pointed-to value at construction time, and a
subsequent mutation of the caller's `Parameters` (updating the store at
that pointer to a different value `q`) leaves the Client's embedded
copy unequal to the mutated value. -/
theorem parameters_copied_at_construction (env : CryptoEnv) (store : ParamStore) (ptr : Nat)
    (e : Endpoint) (u p : String) (c : Client) (q : Parameters)
    (h : NewClientWithParameters env store e u p ptr = Except.ok c)
    (hq : q ≠ store ptr) :
    c.Parameters = store ptr ∧
    Function.update store ptr q ptr = q ∧
    c.Parameters ≠ Function.update store ptr q ptr := by
  have hc : c.Parameters = store ptr := by
    simp only [NewClientWithParameters] at h
    cases hT : (clientTransporter (store ptr)).Transport env e with
    | error e2 =>
      rw [hT] at h
      exact absurd h (by simp)
    | ok cfg =>
      rw [hT] at h
      simp only [Except.ok.injEq] at h
      subst h
      rfl
  refine ⟨hc, Function.update_same _ _ _, ?_⟩
  rw [hc, Function.update_same]
  exact fun hh => hq hh.symm

/-- C9 witness: the theorem applied at a concrete construction: the
client built from `sampleParams` keeps `sampleParams` even after the
caller's store is updated to `otherParams`. -/
theorem parameters_copied_at_construction_witness :
    sampleClient.Parameters = (fun _ : Nat => sampleParams) 0 ∧
    Function.update (fun _ : Nat => sampleParams) 0 otherParams 0 = otherParams ∧
    sampleClient.Parameters ≠ Function.update (fun _ : Nat => sampleParams) 0 otherParams 0 :=
  parameters_copied_at_construction
    { x509KeyPair := fun _ _ => none
      appendCertsFromPEM := fun _ => true }
    (fun _ => sampleParams) 0 sampleEndpoint "user" "pass" sampleClient otherParams
    rfl (by decide)

end Winrm
